import Mathlib

/-
Verification of the OSC message codec and address matcher.

The development shallowly embeds the Go source: byte buffers are `List Nat`
(each entry a byte value), Go strings are Lean `String`, machine integers
are `Nat`/`Int` with explicit reduction modulo 2^32 where it matters, and a
Go call that can return an error or fault (slice out of range / panic) is
modelled by the `GoResult` type.
-/

namespace Osc

/-- Error values of the package (argument.go and the message file) together
with the error a failed `binary.Read` returns and the error of a failed
pattern compilation. -/
inductive OscError where
  | invalidTypeTag
  | readError
  | compileError
  deriving DecidableEq

/-- Result of a Go computation: a value, a returned error, or a runtime
fault (out-of-range slice index, i.e. a Go panic). -/
inductive GoResult (α : Type) where
  | ok (val : α)
  | err (e : OscError)
  | fault
  deriving DecidableEq

/-- NaN test on an IEEE-754 single-precision bit pattern: exponent field all
ones and nonzero mantissa. -/
def isNaN32 (bits : Nat) : Bool :=
  (bits / 2 ^ 23) % 2 ^ 8 == 255 && bits % 2 ^ 23 != 0

/-- Go float32 equality on IEEE-754 bit patterns (bit patterns are below
2^32): NaN is unequal to everything, positive and negative zero are equal,
otherwise the bit patterns must coincide. -/
def floatEq (a b : Nat) : Bool :=
  if isNaN32 a || isNaN32 b then false
  else if a % 2 ^ 31 == 0 && b % 2 ^ 31 == 0 then true
  else a == b

/-- The Argument variant of argument.go: `Int` carries the int32 value,
`Float` carries the IEEE-754 bit pattern of the float32 (no floating-point
arithmetic is performed anywhere in the code under verification), `Bool`
the boolean, `String` the text, `Blob` the raw bytes. -/
inductive Argument where
  | int (i : Int)
  | float (bits : Nat)
  | bool (b : Bool)
  | str (s : String)
  | blob (bs : List Nat)
  deriving DecidableEq

/-- Modelled from the spec: the type-tag constants (tag table in the data
model, tags i f T F s b); their Go definitions are outside the provided
source files. Values are the ASCII codes. -/
def TypetagInt : Nat := 105

/-- Tag byte of Float32 (ASCII f). -/
def TypetagFloat : Nat := 102

/-- Tag byte of Bool-true (ASCII T). -/
def TypetagTrue : Nat := 84

/-- Tag byte of Bool-false (ASCII F). -/
def TypetagFalse : Nat := 70

/-- Tag byte of String (ASCII s). -/
def TypetagString : Nat := 115

/-- Tag byte of Blob (ASCII b). -/
def TypetagBlob : Nat := 98

/-- Typetag methods of argument.go: the tag byte is recomputed from the
variant; Bool-true and Bool-false have distinct tags. -/
def Argument.Typetag : Argument → Nat
  | .int _ => TypetagInt
  | .float _ => TypetagFloat
  | .bool b => if b then TypetagTrue else TypetagFalse
  | .str _ => TypetagString
  | .blob _ => TypetagBlob

/-- Equal methods of argument.go. Each variant first compares the other
argument's tag byte against its own variant's tag (both Bool tags for the
Bool variant) and answers false on a mismatch; on a match the Go code casts
and compares payloads. The wildcard rows model the cast, which cannot be
reached when the tag check has passed. -/
def Argument.Equal : Argument → Argument → Bool
  | .int i, other =>
    if other.Typetag != TypetagInt then false
    else
      match other with
      | .int i2 => i == i2
      | _ => false
  | .float f, other =>
    if other.Typetag != TypetagFloat then false
    else
      match other with
      | .float f2 => floatEq f f2
      | _ => false
  | .bool b, other =>
    if other.Typetag != TypetagFalse && other.Typetag != TypetagTrue then false
    else
      match other with
      | .bool b2 => b == b2
      | _ => false
  | .str s, other =>
    if other.Typetag != TypetagString then false
    else
      match other with
      | .str s2 => s == s2
      | _ => false
  | .blob bs, other =>
    if other.Typetag != TypetagBlob then false
    else
      match other with
      | .blob bs2 => if bs.length != bs2.length then false else bs == bs2
      | _ => false

/-- ReadInt32 methods of argument.go: succeeds only on the Int variant. -/
def Argument.ReadInt32 : Argument → Except OscError Int
  | .int i => .ok i
  | _ => .error .invalidTypeTag

/-- ReadFloat32 methods of argument.go: succeeds only on the Float variant
(the result is the stored bit pattern). -/
def Argument.ReadFloat32 : Argument → Except OscError Nat
  | .float f => .ok f
  | _ => .error .invalidTypeTag

/-- ReadBool methods of argument.go: succeeds only on the Bool variant. -/
def Argument.ReadBool : Argument → Except OscError Bool
  | .bool b => .ok b
  | _ => .error .invalidTypeTag

/-- ReadString methods of argument.go: succeeds only on the String variant. -/
def Argument.ReadString : Argument → Except OscError String
  | .str s => .ok s
  | _ => .error .invalidTypeTag

/-- ReadBlob methods of argument.go: succeeds only on the Blob variant. -/
def Argument.ReadBlob : Argument → Except OscError (List Nat)
  | .blob bs => .ok bs
  | _ => .error .invalidTypeTag

/-- Big-endian value of a byte list; entries are reduced modulo 256 as Go
bytes are. -/
def beNat (bs : List Nat) : Nat := bs.foldl (fun acc b => acc * 256 + b % 256) 0

/-- Two's-complement reading of a 32-bit pattern as a signed integer, with
the explicit reduction modulo 2^32. -/
def toInt32 (n : Nat) : Int :=
  if n % 2 ^ 32 < 2 ^ 31 then ((n % 2 ^ 32 : Nat) : Int)
  else ((n % 2 ^ 32 : Nat) : Int) - 2 ^ 32

/-- Go binary.Read of one big-endian 32-bit value from a byte slice: with
io.ReadFull semantics it succeeds exactly when at least 4 bytes are
available, and on failure the destination variable is left untouched. -/
def readUInt32BE (data : List Nat) : Option Nat :=
  if 4 ≤ data.length then some (beNat (data.take 4)) else none

/-- Round a length up to the next multiple of 4. -/
def roundUp4 (n : Nat) : Nat := n + (4 - n % 4) % 4

/-- Modelled from the spec: `pad` appends zero bytes until the total length
is a multiple of 4 (binary primitives contract; the source's Pad is outside
the provided source files). A length already a multiple of 4 gains
nothing. -/
def Pad (b : List Nat) : List Nat := b ++ List.replicate ((4 - b.length % 4) % 4) 0

/-- Byte values of a Lean string (addresses and tags are ASCII). -/
def strBytes (s : String) : List Nat := s.data.map Char.toNat

/-- String built back from byte values. -/
def bytesStr (bs : List Nat) : String := String.mk (bs.map Char.ofNat)

/-- Modelled from the spec: an OSC string field is the text, NUL-terminated
and zero-padded to a 4-byte boundary (serialization step 1; the source's
OscString is outside the provided source files). -/
def OscString (s : String) : List Nat := Pad (strBytes s ++ [0])

/-- Index of the first NUL byte of a buffer, if any. -/
def findNul : List Nat → Option Nat
  | [] => none
  | b :: rest => if b == 0 then some 0 else (findNul rest).map (· + 1)

/-- Modelled from the spec: `readNulTerminatedString` scans for a NUL byte
and returns the preceding text together with the padded length consumed,
the next multiple of 4 counting the terminator (binary primitives
contract; the source's ReadString is outside the provided source files).
The design notes record that the source scan is not bounds-checked, so a
buffer without a NUL faults. -/
def ReadString (data : List Nat) : Option (String × Nat) :=
  match findNul data with
  | none => none
  | some i => some (bytesStr (data.take i), roundUp4 (i + 1))

/-- Modelled from the spec: `readBlob` takes exactly the declared number of
bytes and reports the declared length rounded up to a multiple of 4 as
consumed (binary primitives contract; the source's ReadBlob is outside the
provided source files). The design notes record that the length-prefixed
read is not bounds-checked in the source, so a declared length that is
negative or exceeds the buffer faults. -/
def ReadBlob (len : Int) (data : List Nat) : Option (List Nat × Nat) :=
  if 0 ≤ len && len ≤ (data.length : Int) then
    some (data.take len.toNat, roundUp4 len.toNat)
  else none

/-- ParseArgument of argument.go. The Int and Float cases discard the error
of binary.Read, so a short buffer leaves the decoded value at zero and the
call still reports 4 bytes consumed with no error. The Blob case returns
the binary.Read error for a buffer shorter than the length prefix and then
delegates to ReadBlob on the bytes after the prefix. -/
def ParseArgument (tt : Nat) (data : List Nat) : GoResult (Argument × Nat) :=
  if tt == TypetagInt then
    match readUInt32BE data with
    | some n => .ok (.int (toInt32 n), 4)
    | none => .ok (.int 0, 4)
  else if tt == TypetagFloat then
    match readUInt32BE data with
    | some n => .ok (.float n, 4)
    | none => .ok (.float 0, 4)
  else if tt == TypetagTrue then .ok (.bool true, 0)
  else if tt == TypetagFalse then .ok (.bool false, 0)
  else if tt == TypetagString then
    match ReadString data with
    | some (s, idx) => .ok (.str s, idx)
    | none => .fault
  else if tt == TypetagBlob then
    match readUInt32BE data with
    | none => .err .readError
    | some n =>
      match ReadBlob (toInt32 n) (data.drop 4) with
      | some (b, bl) => .ok (.blob b, bl + 4)
      | none => .fault
  else .err .invalidTypeTag

/-- Message of the message source file; Sender is opaque transport
metadata. -/
structure Message where
  Address : String
  Arguments : List Argument
  Sender : Option Unit
  deriving DecidableEq

/-- Typetags of the message source file: one tag byte per argument in
order, then Pad. The source appends no NUL terminator of its own. -/
def Message.Typetags (msg : Message) : List Nat :=
  Pad (msg.Arguments.map Argument.Typetag)

/-- Bytes of the message source file: writes the address field and the
typetag field. The loop that would write the argument payloads is
commented out in the source, so no payload bytes are emitted. -/
def Message.Bytes (msg : Message) : List Nat :=
  OscString msg.Address ++ msg.Typetags

/-- Go slice expression data[idx:]: defined only when idx does not exceed
the length, otherwise the program faults. -/
def dropChecked (data : List Nat) (idx : Nat) : Option (List Nat) :=
  if idx ≤ data.length then some (data.drop idx) else none

/-- Modelled from the spec: `ReadArguments` walks the tag bytes, parses one
argument per tag from the remaining buffer and advances the cursor by the
bytes consumed (parse step 3; the source's ReadArguments is outside the
provided source files). -/
def ReadArguments (tags : List Nat) (data : List Nat) : GoResult (List Argument) :=
  match tags with
  | [] => .ok []
  | t :: ts =>
    match ParseArgument t data with
    | .err e => .err e
    | .fault => .fault
    | .ok (a, n) =>
      match ReadArguments ts (data.drop n) with
      | .ok args => .ok (a :: args)
      | .err e => .err e
      | .fault => .fault

/-- ParseMessage of the message source file. After reading the address the
code advances by the consumed count; after reading the typetag field it
advances again and then passes `data[idx:]` to ReadArguments, re-applying
the typetag field's consumed count a second time. Slices follow Go
semantics and fault when the index exceeds the length. -/
def ParseMessage (data : List Nat) (sender : Option Unit) : GoResult Message :=
  match ReadString data with
  | none => .fault
  | some (address, idx) =>
    match dropChecked data idx with
    | none => .fault
    | some data1 =>
      match ReadString data1 with
      | none => .fault
      | some (typetags, idx2) =>
        match dropChecked data1 idx2 with
        | none => .fault
        | some data2 =>
          match dropChecked data2 idx2 with
          | none => .fault
          | some data3 =>
            match ReadArguments (strBytes typetags) data3 with
            | .err e => .err e
            | .fault => .fault
            | .ok args => .ok { Address := address, Arguments := args, Sender := sender }

/-- Modelled from the spec: the address separator character (the source's
MessageChar constant is outside the provided source files). -/
def MessageChar : Char := '/'

/-- Go strings.Split for a one-character separator: the list of segments
between separators; splitting the empty string gives one empty segment,
and the result is never empty. -/
def splitOnChar (sep : Char) : List Char → List (List Char)
  | [] => [[]]
  | c :: rest =>
    match splitOnChar sep rest with
    | [] => if c == sep then [[], []] else [[c]]
    | g :: gs => if c == sep then [] :: g :: gs else (c :: g) :: gs

/-- VerifyParts of the message source file: equal strings pass outright;
otherwise both strings are split on the separator, differing segment
counts reject, and any empty segment past index 0 in either string
rejects. -/
def VerifyParts (m1 m2 : String) : Bool :=
  if m1 == m2 then true
  else
    let p1 := splitOnChar MessageChar m1.data
    let p2 := splitOnChar MessageChar m2.data
    if p1.length != p2.length || p1.length == 0 then false
    else
      ((p1.drop 1).zip (p2.drop 1)).all fun pq =>
        !(pq.1.length == 0) && !(pq.2.length == 0)

/-- Abstract syntax of the regular-expression fragment GetRegex can emit:
literals, the any-character dot, concatenation, alternation and the
Kleene star; `void` is the empty language (used by the matcher). -/
inductive Regex where
  | void
  | eps
  | char (c : Char)
  | any
  | seq (a b : Regex)
  | alt (a b : Regex)
  | star (a : Regex)
  deriving DecidableEq

/-- Whether the empty word is in the language. -/
def nullable : Regex → Bool
  | .void => false
  | .eps => true
  | .char _ => false
  | .any => false
  | .seq a b => nullable a && nullable b
  | .alt a b => nullable a || nullable b
  | .star _ => true

/-- Brzozowski derivative of a regular expression by one character. -/
def deriv (r : Regex) (c : Char) : Regex :=
  match r with
  | .void => .void
  | .eps => .void
  | .char c2 => if c == c2 then .eps else .void
  | .any => .eps
  | .seq a b =>
    if nullable a then .alt (.seq (deriv a c) b) (deriv b c)
    else .seq (deriv a c) b
  | .alt a b => .alt (deriv a c) (deriv b c)
  | .star a => .seq (deriv a c) (.star a)

/-- Whole-string membership test by iterated derivatives. Go's MatchString
on the anchored expression GetRegex builds (a caret at the front and a
dollar at the end) must consume the entire subject, which is exactly this
test. -/
def regexMatch (r : Regex) (s : List Char) : Bool :=
  nullable (s.foldl deriv r)

/-- Concatenation of the atoms accumulated (in reverse) by the parser. -/
def seqOfAtoms (acc : List Regex) : Regex :=
  match acc.reverse with
  | [] => .eps
  | a :: rest => rest.foldl Regex.seq a

mutual

/-- Modelled from Go regexp compilation on the fragment GetRegex emits: an
alternation is a sequence, optionally followed by a bar and another
alternation. Returns the expression and the unconsumed input; none means
the pattern is malformed and Go's regexp.Compile reports an error. The
fuel argument only bounds recursion and is chosen large enough. -/
def parseAlt (fuel : Nat) (cs : List Char) : Option (Regex × List Char) :=
  match fuel with
  | 0 => none
  | fuel + 1 =>
    match parseSeq fuel cs [] with
    | none => none
    | some (r, rest) =>
      match rest with
      | '|' :: rest2 =>
        match parseAlt fuel rest2 with
        | none => none
        | some (r2, rest3) => some (.alt r r2, rest3)
      | _ => some (r, rest)

/-- Modelled from Go regexp compilation: a sequence of atoms, each possibly
starred; a star with no preceding atom, a doubled star, a dangling
backslash and an unclosed group are compile errors, as they are for Go's
regexp.Compile. -/
def parseSeq (fuel : Nat) (cs : List Char) (acc : List Regex) : Option (Regex × List Char) :=
  match fuel with
  | 0 => none
  | fuel + 1 =>
    match cs with
    | [] => some (seqOfAtoms acc, [])
    | c :: rest =>
      if c == ')' || c == '|' then some (seqOfAtoms acc, cs)
      else if c == '*' then
        match acc with
        | [] => none
        | a :: tl =>
          match a with
          | .star _ => none
          | _ => parseSeq fuel rest (.star a :: tl)
      else if c == '\\' then
        match rest with
        | [] => none
        | e :: rest2 => parseSeq fuel rest2 (.char e :: acc)
      else if c == '.' then parseSeq fuel rest (.any :: acc)
      else if c == '(' then
        match parseAlt fuel rest with
        | none => none
        | some (r, rest2) =>
          match rest2 with
          | ')' :: rest3 => parseSeq fuel rest3 (r :: acc)
          | _ => none
      else parseSeq fuel rest (.char c :: acc)

end

/-- Compilation of a whole pattern: all input must be consumed (a stray
closing parenthesis is an error, as for Go's regexp.Compile). -/
def regexCompile (cs : List Char) : Except OscError Regex :=
  match parseAlt (2 * cs.length + 4) cs with
  | some (r, []) => .ok r
  | _ => .error .compileError

/-- The eight sequential substitutions of GetRegex, as one per-character
mapping: dot and both parentheses are escaped, the asterisk becomes
dot-asterisk, the braces become parentheses, the comma becomes the
alternation bar, the question mark becomes a dot. The sequential Go
replacements are equivalent to this single pass because no replacement
text contains a character that a later substitution rewrites. -/
def translateChar (c : Char) : List Char :=
  if c == '.' then ['\\', '.']
  else if c == '(' then ['\\', '(']
  else if c == ')' then ['\\', ')']
  else if c == '*' then ['.', '*']
  else if c == '\x7b' then ['(']
  else if c == ',' then ['|']
  else if c == '\x7d' then [')']
  else if c == '?' then ['.']
  else [c]

/-- GetRegex of the message source file: substitute, then compile the
anchored expression. The caret and dollar anchors the Go code wraps the
pattern in are modelled by regexMatch testing the entire subject. -/
def GetRegex (pattern : String) : Except OscError Regex :=
  regexCompile ((pattern.data.map translateChar).flatten)

/-- Match of the message source file: VerifyParts pre-check on the given
address against the message's own address, then compile the message's
address as a pattern and test the given address; the Go pair of boolean
and error is modelled by a pair with an optional error. -/
def Message.Match (msg : Message) (address : String) : Bool × Option OscError :=
  if !VerifyParts address msg.Address then (false, none)
  else
    match GetRegex msg.Address with
    | .error e => (false, some e)
    | .ok exp => (regexMatch exp address.data, none)

/-- The five variants, with the two Bool tags collapsed to one kind, as
equality treats them. -/
inductive VKind where
  | kInt
  | kFloat
  | kBool
  | kString
  | kBlob
  deriving DecidableEq

/-- Variant of an argument. -/
def variantOf : Argument → VKind
  | .int _ => .kInt
  | .float _ => .kFloat
  | .bool _ => .kBool
  | .str _ => .kString
  | .blob _ => .kBlob

/-- Structural payload comparison between same-variant arguments, floats
compared by Go float32 equality; distinct variants compare false. -/
def payloadEq : Argument → Argument → Bool
  | .int a, .int b => a == b
  | .float a, .float b => floatEq a b
  | .bool a, .bool b => a == b
  | .str a, .str b => a == b
  | .blob a, .blob b => a == b
  | _, _ => false

/-- Claim C1: parsing the serialization of a message with a non-empty
address and arguments does not round-trip; on the message with address /a
and the single argument Int 5, the serializer emits no argument payload
and the parser, re-applying the typetag field's consumed count, slices
past the end of the buffer and faults. -/
theorem roundtrip_serialize_parse_faults :
    ParseMessage (Message.Bytes ⟨"/a", [.int 5], none⟩) none = .fault := by decide

/-- Claim C2: serialization stops after the address field and the typetag
field; for the message with address /a and argument Int 5 the buffer is
exactly those eight bytes and contains no byte of the argument's 4-byte
big-endian payload (in particular not the byte 5). -/
theorem serialize_omits_argument_payloads :
    Message.Bytes ⟨"/a", [.int 5], none⟩ = [47, 97, 0, 0, 105, 0, 0, 0] ∧
    ¬ (5 ∈ Message.Bytes ⟨"/a", [.int 5], none⟩) := by decide

/-- Claim C3: on the well-formed wire buffer of the message /a with the
single argument Int 5 (address field, typetag field, then the payload
bytes 0 0 0 5), decoding the payload at the cursor right after the typetag
field yields Int 5, but ParseMessage starts argument decoding four bytes
later (it re-applies the typetag field's consumed count) and returns the
argument Int 0 decoded from the empty remainder. -/
theorem parse_skips_typetag_length_twice :
    ParseArgument TypetagInt [0, 0, 0, 5] = .ok (.int 5, 4) ∧
    ParseMessage [47, 97, 0, 0, 105, 0, 0, 0, 0, 0, 0, 5] none =
      .ok ⟨"/a", [.int 0], none⟩ := by decide

/-- Claim C4: the typetag field is only the tag bytes padded to a multiple
of 4; no NUL terminator is appended, so with zero arguments the field is
empty and with four arguments it is the four tag bytes with no NUL byte at
all. -/
theorem typetags_lack_nul_terminator :
    Message.Typetags ⟨"/x", [], none⟩ = [] ∧
    Message.Typetags ⟨"/x", [.int 1, .int 2, .int 3, .int 4], none⟩ = [105, 105, 105, 105] ∧
    ¬ (0 ∈ Message.Typetags ⟨"/x", [.int 1, .int 2, .int 3, .int 4], none⟩) := by decide

/-- Claim C5, counterexample: matching the address /a-brace against the
identical pattern does not succeed immediately; the pattern is still
compiled, compilation fails on the unbalanced group, and Match returns
false with the compile error instead of true with no error. -/
theorem match_exact_fastpath_counterexample :
    Message.Match ⟨"/a\x7b", [], none⟩ "/a\x7b" = (false, some .compileError) ∧
    ¬ Message.Match ⟨"/a\x7b", [], none⟩ "/a\x7b" = (true, none) := by decide

/-- Claim C5, amended: exact equality of address and pattern only
guarantees that the part-count pre-check passes; Match still compiles the
pattern, returns false together with the error when compilation fails, and
otherwise returns the compiled expression's verdict on the address. -/
theorem match_exact_address_amended (p : String) (args : List Argument) (sender : Option Unit) :
    VerifyParts p p = true ∧
    (∀ e, GetRegex p = .error e → Message.Match ⟨p, args, sender⟩ p = (false, some e)) ∧
    (∀ r, GetRegex p = .ok r → Message.Match ⟨p, args, sender⟩ p = (regexMatch r p.data, none)) := by
  have hv : VerifyParts p p = true := by simp [VerifyParts]
  refine ⟨hv, fun e he => ?_, fun r hr => ?_⟩
  · simp [Message.Match, hv, he]
  · simp [Message.Match, hv, hr]

/-- Claim C5, witness for the amended statement at the pattern /a-brace,
whose compilation fails. -/
theorem match_exact_address_amended_witness :
    VerifyParts "/a\x7b" "/a\x7b" = true ∧
    Message.Match ⟨"/a\x7b", [], none⟩ "/a\x7b" = (false, some OscError.compileError) :=
  ⟨(match_exact_address_amended "/a\x7b" [] none).1,
   (match_exact_address_amended "/a\x7b" [] none).2.1 OscError.compileError (by rfl)⟩

/-- Helper: splitting never produces an empty list of segments. -/
theorem splitOnChar_ne_nil (sep : Char) (cs : List Char) : splitOnChar sep cs ≠ [] := by
  cases cs with
  | nil => simp [splitOnChar]
  | cons c rest =>
    rw [splitOnChar]
    split <;> split <;> simp

/-- Claim C6: when the address and the pattern are not exactly equal, a
differing number of slash-separated segments, or an empty segment past
index 0 in either string, makes Match return false with no error, before
any pattern compilation. -/
theorem match_part_count_reject (address pattern : String) (args : List Argument)
    (sender : Option Unit) (hne : address ≠ pattern)
    (h : (splitOnChar MessageChar address.data).length ≠
          (splitOnChar MessageChar pattern.data).length ∨
      ∃ i s, 1 ≤ i ∧ s.length = 0 ∧
        ((splitOnChar MessageChar address.data)[i]? = some s ∨
         (splitOnChar MessageChar pattern.data)[i]? = some s)) :
    Message.Match ⟨pattern, args, sender⟩ address = (false, none) := by
  have hv : VerifyParts address pattern = false := by
    rw [VerifyParts, if_neg (by simp [hne])]
    by_cases hlen : (splitOnChar MessageChar address.data).length =
        (splitOnChar MessageChar pattern.data).length
    case neg => rw [if_pos (by simp [hlen])]
    case pos =>
      rcases h with h | ⟨i, s, h1, hs, hg⟩
      · exact absurd hlen h
      · rw [if_neg (by simp [hlen, List.length_eq_zero, splitOnChar_ne_nil])]
        apply Bool.eq_false_iff.mpr
        intro hall
        rw [List.all_eq_true] at hall
        have hiA : i < (splitOnChar MessageChar address.data).length := by
          rcases hg with hg | hg <;>
          · by_contra hcon
            rw [List.getElem?_eq_none (by omega)] at hg
            exact Option.noConfusion hg
        have hiB : i < (splitOnChar MessageChar pattern.data).length := by omega
        have hj : i - 1 < (((splitOnChar MessageChar address.data).drop 1).zip
            ((splitOnChar MessageChar pattern.data).drop 1)).length := by
          simp only [List.length_zip, List.length_drop]
          omega
        have hmem := hall _ (List.getElem_mem hj)
        rw [List.getElem_zip, List.getElem_drop, List.getElem_drop] at hmem
        have hidx : 1 + (i - 1) = i := by omega
        rcases hg with hg | hg
        · have hg2 : (splitOnChar MessageChar address.data)[1 + (i - 1)]? = some s := by
            rw [hidx]; exact hg
          rw [List.getElem?_eq_getElem (by omega)] at hg2
          rw [Option.some.inj hg2, hs] at hmem
          simp at hmem
        · have hg2 : (splitOnChar MessageChar pattern.data)[1 + (i - 1)]? = some s := by
            rw [hidx]; exact hg
          rw [List.getElem?_eq_getElem (by omega)] at hg2
          rw [Option.some.inj hg2, hs] at hmem
          simp at hmem
  simp [Message.Match, hv]

/-- Claim C6, witness: the spec's two examples, a differing part count and
an address with an empty segment. -/
theorem match_part_count_reject_witness :
    Message.Match ⟨"/foo/bar", [], none⟩ "/foo/bar/x" = (false, none) ∧
    Message.Match ⟨"/foo//bar", [], none⟩ "/foo/bar" = (false, none) :=
  ⟨match_part_count_reject "/foo/bar/x" "/foo/bar" [] none (by decide) (Or.inl (by decide)),
   match_part_count_reject "/foo/bar" "/foo//bar" [] none (by decide) (Or.inl (by decide))⟩

/-- Claim C7: for every argument, the typed-read accessor of its own
variant succeeds with the stored value and each of the other four
accessors returns the invalid-type-tag error. -/
theorem read_accessor_exclusivity (a : Argument) :
    match a with
    | .int i => a.ReadInt32 = .ok i ∧ a.ReadFloat32 = .error .invalidTypeTag ∧
        a.ReadBool = .error .invalidTypeTag ∧ a.ReadString = .error .invalidTypeTag ∧
        a.ReadBlob = .error .invalidTypeTag
    | .float f => a.ReadInt32 = .error .invalidTypeTag ∧ a.ReadFloat32 = .ok f ∧
        a.ReadBool = .error .invalidTypeTag ∧ a.ReadString = .error .invalidTypeTag ∧
        a.ReadBlob = .error .invalidTypeTag
    | .bool b => a.ReadInt32 = .error .invalidTypeTag ∧ a.ReadFloat32 = .error .invalidTypeTag ∧
        a.ReadBool = .ok b ∧ a.ReadString = .error .invalidTypeTag ∧
        a.ReadBlob = .error .invalidTypeTag
    | .str s => a.ReadInt32 = .error .invalidTypeTag ∧ a.ReadFloat32 = .error .invalidTypeTag ∧
        a.ReadBool = .error .invalidTypeTag ∧ a.ReadString = .ok s ∧
        a.ReadBlob = .error .invalidTypeTag
    | .blob bs => a.ReadInt32 = .error .invalidTypeTag ∧ a.ReadFloat32 = .error .invalidTypeTag ∧
        a.ReadBool = .error .invalidTypeTag ∧ a.ReadString = .error .invalidTypeTag ∧
        a.ReadBlob = .ok bs := by
  cases a <;> exact ⟨rfl, rfl, rfl, rfl, rfl⟩

/-- Claim C8: Equal holds exactly between same-variant arguments with equal
payloads (floats by Go float32 equality, the two Bool tags passing one
common variant gate); across variants it is always false, and the spec's
three concrete examples evaluate as stated. -/
theorem equal_variant_sensitive (a b : Argument) :
    (a.Equal b = true ↔ variantOf a = variantOf b ∧ payloadEq a b = true) ∧
    (Argument.int 5).Equal (.float 1084227584) = false ∧
    (Argument.int 5).Equal (.int 5) = true ∧
    (Argument.int 5).Equal (.int 6) = false := by
  refine ⟨?_, by decide, by decide, by decide⟩
  cases a <;> cases b <;>
    simp [Argument.Equal, Argument.Typetag, variantOf, payloadEq,
      TypetagInt, TypetagFloat, TypetagTrue, TypetagFalse, TypetagString, TypetagBlob]
  exact fun hb => by rw [hb]

/-- Claim C10: with tag i or f, ParseArgument never returns an error: a
buffer of at least 4 bytes decodes the big-endian value, and a shorter
buffer leaves the value at zero; both report 4 bytes consumed. -/
theorem parse_int_float_never_errors (data : List Nat) :
    (4 ≤ data.length →
      ParseArgument TypetagInt data = .ok (.int (toInt32 (beNat (data.take 4))), 4) ∧
      ParseArgument TypetagFloat data = .ok (.float (beNat (data.take 4)), 4)) ∧
    (data.length < 4 →
      ParseArgument TypetagInt data = .ok (.int 0, 4) ∧
      ParseArgument TypetagFloat data = .ok (.float 0, 4)) := by
  constructor <;> intro h <;>
    simp [ParseArgument, readUInt32BE, h, Nat.not_le.mpr,
      TypetagInt, TypetagFloat, TypetagTrue, TypetagFalse, TypetagString, TypetagBlob]

/-- Claim C10, witness: the one-byte buffer decodes as Int 0 and Float 0
with 4 bytes consumed and no error. -/
theorem parse_int_float_never_errors_witness :
    ([7] : List Nat).length < 4 ∧
    ParseArgument TypetagInt [7] = .ok (.int 0, 4) ∧
    ParseArgument TypetagFloat [7] = .ok (.float 0, 4) :=
  ⟨by decide, (parse_int_float_never_errors [7]).2 (by decide)⟩

/-- Claim C9: a blob whose declared length exceeds the bytes remaining
after the 4-byte prefix faults (the unbounded take slices past the end)
instead of returning a parse error; a buffer shorter than the prefix
itself does return the read error. -/
theorem blob_overlong_declared_length_faults :
    ParseArgument TypetagBlob [0, 0, 0, 10] = .fault ∧
    ParseArgument TypetagBlob [0, 0] = .err .readError := by decide

end Osc
